import Mathlib

/-!
Shallow embedding of the dropship manager's reconciliation core
(`src/streamlit_app.py`): the key extractor, SKU preprocessing, the
exact-key reconciler `fuzzy_match_inventory`, the availability
aggregator/filter of `display_product_tiles`, the export assembler
`output_selected_files`, and the selection store.

Tables are modelled as a column list plus rows; a row is an ordered
association list from column name to a scalar cell value.  Pandas `NaN`
cells are the `null` value; numeric cells are integers.
-/

namespace Dropship

/-- A scalar cell value: a string, an integer, or a missing (NaN) cell. -/
inductive Val where
  | str (s : String)
  | num (n : Int)
  | null
deriving DecidableEq, Repr

/-- A row is an ordered association list from column name to value,
mirroring a pandas Series (index of labels with values). -/
abbrev Row := List (String × Val)

/-- Cell access `row[col]`; a label absent from the row reads as NaN. -/
def getVal (r : Row) (c : String) : Val := (List.lookup c r).getD Val.null

/-- A pandas DataFrame: a list of column labels and a list of rows. -/
structure Table where
  cols : List String
  rows : List Row
deriving DecidableEq, Repr

/-- The empty DataFrame `pd.DataFrame()` / `pd.DataFrame([])`. -/
def emptyTable : Table := ⟨[], []⟩

/-- Python `str(v)` as applied to a cell: strings unchanged, numbers
printed, and NaN printed as "nan" (which contains no digit). -/
def Val.toText : Val → String
  | .str s => s
  | .num n => toString n
  | .null => "nan"

/-- First maximal run of decimal digits in a character list, as a string;
empty if there is no digit.  Models `re.search(r'\d+', s)`. -/
def firstDigitRun : List Char → String
  | [] => ""
  | c :: rest =>
    if c.isDigit then String.mk ((c :: rest).takeWhile Char.isDigit)
    else firstDigitRun rest

/-- `extract_sku_number(sku)` (line 61): the first run of digits of
`str(sku)`, or the empty string when there is none. -/
def extract_sku_number (sku : Val) : String := firstDigitRun sku.toText.toList

/-- The SKU-like column of a table: `'Variant SKU'` when present, else
`'SKU'`, else none (line 67). -/
def sku_col (t : Table) : Option String :=
  if "Variant SKU" ∈ t.cols then some "Variant SKU"
  else if "SKU" ∈ t.cols then some "SKU"
  else none

/-- `df[c] = v` at row level: overwrite an existing binding for `c` in
place, otherwise append the new column cell at the end. -/
def setCell (r : Row) (c : String) (v : Val) : Row :=
  if (List.lookup c r).isSome then
    r.map (fun cv => if cv.1 = c then (c, v) else cv)
  else r ++ [(c, v)]

/-- The `sku_num` value of a row as a string (empty when absent). -/
def keyStr (r : Row) : String :=
  match getVal r "sku_num" with
  | .str s => s
  | _ => ""

/-- Add the derived `sku_num` cell from the SKU column `c` (line 71). -/
def addKeyCol (c : String) (r : Row) : Row :=
  setCell r "sku_num" (Val.str (extract_sku_number (getVal r c)))

/-- `preprocess_sku(df)` (lines 65–72): pick the SKU column; when neither
`'Variant SKU'` nor `'SKU'` exists the code warns and returns the empty
DataFrame, modelled as `none`.  Otherwise derive `sku_num` for every row
and keep only the rows whose `sku_num` is non-empty. -/
def preprocess_sku (t : Table) : Option Table :=
  match sku_col t with
  | none => none
  | some c =>
    let cols' := if "sku_num" ∈ t.cols then t.cols else t.cols ++ ["sku_num"]
    some ⟨cols', (t.rows.map (addKeyCol c)).filter (fun r => keyStr r ≠ "")⟩

/-- One step of the matching loop (lines 79–87): find the first inventory
row with an equal `sku_num`; on a match, concatenate the product row with
the matched row minus the columns in the intersection of the two frames'
column sets; otherwise keep the product row unchanged. -/
def mergeOne (pcols icols : List String) (irows : List Row) (pr : Row) : Row :=
  match irows.find? (fun ir => getVal ir "sku_num" == getVal pr "sku_num") with
  | some best => pr ++ best.filter (fun cv => !((pcols.inter icols).contains cv.1))
  | none => pr

/-- Duplicate removal keeping the first occurrence (worker). -/
def dedupFirstAux {α : Type} [DecidableEq α] (seen : List α) : List α → List α
  | [] => []
  | x :: xs =>
    if x ∈ seen then dedupFirstAux seen xs
    else x :: dedupFirstAux (x :: seen) xs

/-- Duplicate removal keeping the first occurrence, as pandas
`drop_duplicates` and column-union construction do. -/
def dedupFirst {α : Type} [DecidableEq α] (l : List α) : List α :=
  dedupFirstAux [] l

/-- Columns of `pd.DataFrame(rows)` built from Series: the union of the
rows' labels in order of first appearance. -/
def unionCols (rows : List Row) : List String :=
  dedupFirst (rows.flatMap (fun r => r.map Prod.fst))

/-- `fuzzy_match_inventory(product_df, inventory_df)` (lines 74–89).
When the product table has no SKU column its preprocessed frame is the
empty DataFrame, the loop body never runs and the result is empty.  When
the product frame has at least one keyed row but the inventory table has
no SKU column, the loop evaluates `inventory_df['sku_num']` on the empty
DataFrame and raises a `KeyError`.  Otherwise each keyed product row is
merged with the first equal-key inventory row (if any). -/
def fuzzy_match_inventory (pdf idf : Table) : Except String Table :=
  match preprocess_sku pdf with
  | none => Except.ok emptyTable
  | some p =>
    match p.rows with
    | [] => Except.ok emptyTable
    | _ :: _ =>
      match preprocess_sku idf with
      | none => Except.error "KeyError: sku_num"
      | some i =>
        let merged := p.rows.map (mergeOne p.cols i.cols i.rows)
        Except.ok ⟨unionCols merged, merged⟩

/-! ### Availability aggregator (`display_product_tiles`, lines 134–144) -/

/-- `needle ∈ hay` as a substring test on character lists. -/
def hasSubList (needle : List Char) : List Char → Bool
  | [] => needle.isEmpty
  | c :: t => needle.isPrefixOf (c :: t) || hasSubList needle t

/-- Python's case-sensitive substring test `needle in hay`. -/
def strHas (hay needle : String) : Bool := hasSubList needle.toList hay.toList

/-- Quantity-column choice (lines 136–139): `'Available Quantity'` when
that exact column exists, else the first column whose name contains the
case-sensitive substring `'Available'`, else none. -/
def pick_qty_col (cols : List String) : Option String :=
  if "Available Quantity" ∈ cols then some "Available Quantity"
  else cols.find? (fun c => strHas c "Available")

/-- `fillna(0)` at cell level: a missing/NaN cell counts as zero. -/
def cellNum : Val → Int
  | .num n => n
  | _ => 0

/-- `group[c].fillna(0).sum()`: the sum of column `c` over the rows. -/
def sumCol (c : String) (rows : List Row) : Int :=
  rows.foldl (fun acc r => acc + cellNum (getVal r c)) 0

/-- The aggregated availability of a group (lines 136–141): `none` is the
"no inventory data" outcome, taken when no quantity column exists. -/
def aggregate (g : Table) : Option Int :=
  match pick_qty_col g.cols with
  | none => none
  | some c => some (sumCol c g.rows)

/-- The group filter of lines 140–143: a group is kept iff a quantity
column was identified and its total lies within the slider range; a group
with no quantity column is dropped unconditionally. -/
def keepGroup (lo hi : Int) (g : Table) : Bool :=
  match aggregate g with
  | none => false
  | some q => decide (lo ≤ q) && decide (q ≤ hi)

/-! ### Row sorting (`sort_values`, line 190) -/

/-- Rank of a value's kind, ordering mixed-kind cells deterministically. -/
def valKind : Val → Nat
  | .null => 0
  | .num _ => 1
  | .str _ => 2

/-- Lexicographic (code-point) order on character lists. -/
def listCharLE : List Char → List Char → Bool
  | [], _ => true
  | _ :: _, [] => false
  | a :: as, b :: bs =>
    if a.toNat < b.toNat then true
    else if b.toNat < a.toNat then false
    else listCharLE as bs

/-- Lexicographic (code-point) order on strings, as pandas sorts string
columns. -/
def strLEb (s t : String) : Bool := listCharLE s.toList t.toList

/-- Total comparison of cell values: same-kind cells compare by their
payload, mixed kinds by kind rank. -/
def valLE (a b : Val) : Bool :=
  match a, b with
  | .num m, .num n => decide (m ≤ n)
  | .str s, .str t => strLEb s t
  | _, _ => decide (valKind a ≤ valKind b)

/-- Insert a row into a list sorted by `le`. -/
def insertRow (le : Row → Row → Bool) (x : Row) : List Row → List Row
  | [] => [x]
  | y :: ys => if le x y then x :: y :: ys else y :: insertRow le x ys

/-- Sort rows ascending by the value in column `c` (insertion sort, a
deterministic comparison sort as `DataFrame.sort_values(by=c)` is). -/
def sortRows (c : String) (rows : List Row) : List Row :=
  rows.foldr (insertRow (fun a b => valLE (getVal a c) (getVal b c))) []

/-- Line 190: `selected_df.sort_values(by=selected_df.columns[0])` —
always sorts by the first column; indexing an empty column set raises. -/
def sort_values_first (t : Table) : Except String Table :=
  match t.cols with
  | [] => Except.error "IndexError: columns"
  | c :: _ => Except.ok ⟨t.cols, sortRows c t.rows⟩

/-- Modelled from the spec's words only (for comparison with
`sort_values_first`, which is the code's behavior): "Sort rows
deterministically (by Handle, or by the first column if Handle is
unavailable)". -/
def spec_sort_for_export (t : Table) : Except String Table :=
  if "Handle" ∈ t.cols then Except.ok ⟨t.cols, sortRows "Handle" t.rows⟩
  else sort_values_first t

/-! ### Export assembler (`output_selected_files`, lines 178–201) -/

/-- `Series.isin(selected_handles)` at cell level: the stored handles are
strings, so only a string cell equal to a selected handle passes. -/
def valInSel (v : Val) (sel : List String) : Bool :=
  match v with
  | .str s => sel.contains s
  | _ => false

/-- `df[df['Handle'].isin(selected_handles)]` (lines 182–186). -/
def select_by_handle (t : Table) (sel : List String) : Table :=
  ⟨t.cols, t.rows.filter (fun r => valInSel (getVal r "Handle") sel)⟩

/-- `df.drop(columns=cs)`. -/
def dropCols (t : Table) (cs : List String) : Table :=
  ⟨t.cols.filter (fun c => !cs.contains c),
   t.rows.map (fun r => r.filter (fun cv => !cs.contains cv.1))⟩

/-- A left join on `key`: every left row, extended by each matching right
row's non-key cells, or kept alone when nothing matches. -/
def leftJoinOn (key : String) (l r : Table) : Table :=
  let rExtra := (r.cols.filter (fun c => c ≠ key)).filter (fun c => !l.cols.contains c)
  ⟨l.cols ++ rExtra,
   l.rows.flatMap (fun lr =>
     let ms := r.rows.filter (fun rr => getVal rr key == getVal lr key)
     if ms.isEmpty then [lr]
     else ms.map (fun rr => lr ++ rr.filter (fun cv => cv.1 ≠ key)))⟩

/-- `pd.merge(l, r, on=key, how='left')`: raises a `KeyError` unless the
join key is a column of both frames. -/
def pdMerge (l r : Table) (key : String) : Except String Table :=
  if key ∈ l.cols ∧ key ∈ r.cols then Except.ok (leftJoinOn key l r)
  else Except.error ("KeyError: " ++ key)

/-- `df[cs]`: column projection. -/
def projectCols (t : Table) (cs : List String) : Table :=
  ⟨cs, t.rows.map (fun r => cs.map (fun c => (c, getVal r c)))⟩

/-- The substring fallback routing a column to the product file
(line 196). -/
def productColFallback (c : String) : Bool :=
  strHas c "SKU" || strHas c "Title" || strHas c "Handle" || strHas c "Image Src"

/-- The substring fallback routing a column to the inventory file
(line 198). -/
def inventoryColFallback (c : String) : Bool :=
  strHas c "Available" || strHas c "SKU"

/-- `output_selected_files(merged_df)` (lines 178–201), with the session
state passed explicitly: `full` is `full_product_df`, `sel` the selected
handles, `origP`/`origI` the recorded original column lists (absent when
their session keys were never set).  Returns the assembled frame together
with the product and inventory outputs, or the raised error.  Note the
merge step drops every shared column — including `Handle` — from the
right frame and then joins `on='Handle'`. -/
def output_selected_files (full merged : Table) (sel : List String)
    (origP origI : Option (List String)) : Except String (Table × Table × Table) :=
  if "Handle" ∈ full.cols then
    let selected := select_by_handle full sel
    if "Handle" ∈ merged.cols then
      let msub := select_by_handle merged sel
      let right := dropCols msub (selected.cols.inter msub.cols)
      match pdMerge selected right "Handle" with
      | Except.error e => Except.error e
      | Except.ok joined =>
        match sort_values_first ⟨joined.cols, dedupFirst joined.rows⟩ with
        | Except.error e => Except.error e
        | Except.ok sorted =>
          let pSel := match origP with
            | some opc => sorted.cols.filter (fun c => opc.contains c)
            | none => []
          let pcols := if pSel.isEmpty then sorted.cols.filter productColFallback else pSel
          let iSel := match origI with
            | some oic => sorted.cols.filter (fun c => oic.contains c)
            | none => []
          let icols := if iSel.isEmpty then sorted.cols.filter inventoryColFallback else iSel
          Except.ok (sorted, projectCols sorted pcols, projectCols sorted icols)
    else Except.error "KeyError: Handle"
  else Except.error "KeyError: Handle"

/-! ### Selection store (lines 19–24, 47–49, 170–174, 280–282) -/

/-- `save_selected_handles()` (lines 47–49): serialize the in-memory set
as a list (`json.dump(list(s))`), modelled with a fixed enumeration
order. -/
def save_selected_handles (s : Finset String) : List String :=
  s.sort (· ≤ ·)

/-- Startup load (lines 19–24): no storage file yields the empty set;
otherwise `set(json.load(f))`. -/
def load_selected_handles (disk : Option (List String)) : Finset String :=
  match disk with
  | none => ∅
  | some l => l.toFinset

/-- A mutation of the selection store: checkbox add/discard
(lines 170–173) or clearing (line 281). -/
inductive StoreOp where
  | add (h : String)
  | remove (h : String)
  | clear

/-- The in-memory selection set together with the durable file's
contents (`none` = no file). -/
structure StoreState where
  mem : Finset String
  disk : Option (List String)

/-- Apply one mutation; each is followed by a synchronous full-overwrite
`save_selected_handles()` (lines 174, 282). -/
def applyOp (st : StoreState) : StoreOp → StoreState
  | .add h =>
    let m := insert h st.mem
    ⟨m, some (save_selected_handles m)⟩
  | .remove h =>
    let m := st.mem.erase h
    ⟨m, some (save_selected_handles m)⟩
  | .clear => ⟨∅, some (save_selected_handles ∅)⟩

/-- Apply a sequence of mutations in order. -/
def applyOps (st : StoreState) (ops : List StoreOp) : StoreState :=
  ops.foldl applyOp st

/-! ### Concrete fixtures for witnesses and counterexamples -/

/-- A one-row product table with a digit-bearing SKU. -/
def productW : Table :=
  ⟨["Handle", "Title", "Variant SKU"],
   [[("Handle", Val.str "h1"), ("Title", Val.str "Widget"),
     ("Variant SKU", Val.str "ABC-100")]]⟩

/-- A two-row inventory table whose rows share MatchKey "100". -/
def inventoryW : Table :=
  ⟨["SKU", "Available Quantity"],
   [[("SKU", Val.str "XYZ-100"), ("Available Quantity", Val.num 5)],
    [("SKU", Val.str "QQQ-100"), ("Available Quantity", Val.num 7)]]⟩

/-- The (unique) row of `preprocess_sku productW`. -/
def prW : Row :=
  [("Handle", Val.str "h1"), ("Title", Val.str "Widget"),
   ("Variant SKU", Val.str "ABC-100"), ("sku_num", Val.str "100")]

/-- The first row of `preprocess_sku inventoryW`. -/
def irW : Row :=
  [("SKU", Val.str "XYZ-100"), ("Available Quantity", Val.num 5),
   ("sku_num", Val.str "100")]

/-- The second row of `preprocess_sku inventoryW` (same MatchKey). -/
def irW2 : Row :=
  [("SKU", Val.str "QQQ-100"), ("Available Quantity", Val.num 7),
   ("sku_num", Val.str "100")]

/-- `preprocess_sku productW` spelled out. -/
def productWP : Table :=
  ⟨["Handle", "Title", "Variant SKU", "sku_num"], [prW]⟩

/-- `preprocess_sku inventoryW` spelled out. -/
def inventoryWP : Table :=
  ⟨["SKU", "Available Quantity", "sku_num"], [irW, irW2]⟩

/-- A product table exposing neither `'Variant SKU'` nor `'SKU'`. -/
def noSkuProduct : Table :=
  ⟨["Handle", "Title"], [[("Handle", Val.str "h1"), ("Title", Val.str "W")]]⟩

/-- A one-row product table whose SKU has no digit (empty MatchKey). -/
def productNoDigit : Table :=
  ⟨["Handle", "Variant SKU"],
   [[("Handle", Val.str "h1"), ("Variant SKU", Val.str "ABC")]]⟩

/-- The merged frame `fuzzy_match_inventory productW inventoryW` yields. -/
def mergedW : Table :=
  ⟨["Handle", "Title", "Variant SKU", "sku_num", "SKU", "Available Quantity"],
   [[("Handle", Val.str "h1"), ("Title", Val.str "Widget"),
     ("Variant SKU", Val.str "ABC-100"), ("sku_num", Val.str "100"),
     ("SKU", Val.str "XYZ-100"), ("Available Quantity", Val.num 5)]]⟩

/-- A table whose `Handle` column is not its first column and whose
sort-by-first-column order differs from sort-by-Handle order. -/
def sortT : Table :=
  ⟨["A", "Handle"],
   [[("A", Val.num 2), ("Handle", Val.str "a")],
    [("A", Val.num 1), ("Handle", Val.str "b")]]⟩

/-- The unkeyable product row of the C10 scenario. -/
def rowE : Row :=
  [("Handle", Val.str "h1"), ("Title", Val.str "T"), ("Variant SKU", Val.str "ABC")]

/-- A product table whose only row has an empty MatchKey. -/
def productE : Table := ⟨["Handle", "Title", "Variant SKU"], [rowE]⟩

/-! ### Helper lemmas -/

theorem lookup_append_some {c : String} {v : Val} {l₁ l₂ : Row}
    (h : List.lookup c l₁ = some v) : List.lookup c (l₁ ++ l₂) = some v := by
  induction l₁ with
  | nil => simp [List.lookup] at h
  | cons x t ih =>
    obtain ⟨a, b⟩ := x
    rw [List.lookup_cons] at h
    show List.lookup c ((a, b) :: (t ++ l₂)) = some v
    rw [List.lookup_cons]
    cases hc : (c == a) with
    | true => simpa [hc] using h
    | false =>
      simp only [hc] at h ⊢
      exact ih h

theorem lookup_append_none {c : String} {l₁ l₂ : Row}
    (h : List.lookup c l₁ = none) :
    List.lookup c (l₁ ++ l₂) = List.lookup c l₂ := by
  induction l₁ with
  | nil => simp
  | cons x t ih =>
    obtain ⟨a, b⟩ := x
    rw [List.lookup_cons] at h
    show List.lookup c ((a, b) :: (t ++ l₂)) = List.lookup c l₂
    rw [List.lookup_cons]
    cases hc : (c == a) with
    | true => simp [hc] at h
    | false =>
      simp only [hc] at h ⊢
      exact ih h

theorem lookup_map_replace (c : String) (v : Val) :
    ∀ r : Row, (List.lookup c r).isSome = true →
      List.lookup c (r.map (fun cv => if cv.1 = c then (c, v) else cv)) = some v := by
  intro r
  induction r with
  | nil => intro h; simp [List.lookup] at h
  | cons x t ih =>
    intro h
    obtain ⟨a, b⟩ := x
    by_cases hac : a = c
    · subst hac
      simp [List.lookup_cons]
    · have hca : (c == a) = false := by
        simp only [beq_eq_false_iff_ne, ne_eq]
        exact fun hh => hac hh.symm
      rw [List.lookup_cons, hca] at h
      simp only [List.map_cons, if_neg hac]
      rw [List.lookup_cons, hca]
      exact ih h

theorem lookup_setCell_self (r : Row) (c : String) (v : Val) :
    List.lookup c (setCell r c v) = some v := by
  unfold setCell
  cases hl : List.lookup c r with
  | none =>
    simp only [hl, Option.isSome_none, Bool.false_eq_true, if_false]
    rw [lookup_append_none hl]
    simp [List.lookup_cons]
  | some w =>
    simp only [hl, Option.isSome_some, if_true]
    exact lookup_map_replace c v r (by rw [hl]; rfl)

theorem keyStr_addKeyCol (c : String) (r : Row) :
    keyStr (addKeyCol c r) = extract_sku_number (getVal r c) := by
  unfold keyStr addKeyCol getVal
  rw [lookup_setCell_self]
  rfl

theorem lookup_addKeyCol (c : String) (r : Row) :
    List.lookup "sku_num" (addKeyCol c r)
      = some (Val.str (extract_sku_number (getVal r c))) := by
  unfold addKeyCol
  exact lookup_setCell_self ..

theorem keyStr_lookup {r : Row} (h : keyStr r ≠ "") :
    List.lookup "sku_num" r = some (Val.str (keyStr r)) := by
  cases hl : List.lookup "sku_num" r with
  | none => exact absurd (by simp [keyStr, getVal, hl]) h
  | some v =>
    cases v with
    | str s => simp [keyStr, getVal, hl]
    | num n => exact absurd (by simp [keyStr, getVal, hl]) h
    | null => exact absurd (by simp [keyStr, getVal, hl]) h

theorem mem_preprocess_key {t t' : Table} {r : Row}
    (hp : preprocess_sku t = some t') (hr : r ∈ t'.rows) : keyStr r ≠ "" := by
  unfold preprocess_sku at hp
  cases hc : sku_col t with
  | none => rw [hc] at hp; exact absurd hp (by simp)
  | some c =>
    rw [hc] at hp
    simp only [Option.some.injEq] at hp
    have : t'.rows = (t.rows.map (addKeyCol c)).filter (fun r => keyStr r ≠ "") := by
      rw [← hp]
    rw [this] at hr
    have := (List.mem_filter.1 hr).2
    simpa using this

theorem mem_preprocess_shape {t t' : Table} {r : Row}
    (hp : preprocess_sku t = some t') (hr : r ∈ t'.rows) :
    ∃ c r₀, sku_col t = some c ∧ r₀ ∈ t.rows ∧ r = addKeyCol c r₀ := by
  unfold preprocess_sku at hp
  cases hc : sku_col t with
  | none => rw [hc] at hp; exact absurd hp (by simp)
  | some c =>
    rw [hc] at hp
    simp only [Option.some.injEq] at hp
    have hrows : t'.rows = (t.rows.map (addKeyCol c)).filter (fun r => keyStr r ≠ "") := by
      rw [← hp]
    rw [hrows] at hr
    have hmem := (List.mem_filter.1 hr).1
    obtain ⟨r₀, hr₀, heq⟩ := List.mem_map.1 hmem
    exact ⟨c, r₀, rfl, hr₀, heq.symm⟩

theorem find?_first {α : Type} (p : α → Bool) :
    ∀ (l : List α) (a : α), l.find? p = some a →
      ∃ pre post, l = pre ++ a :: post ∧ (∀ x ∈ pre, p x = false) ∧ p a = true := by
  intro l
  induction l with
  | nil => intro a h; simp at h
  | cons x t ih =>
    intro a h
    cases hp : p x with
    | true =>
      rw [List.find?_cons_of_pos _ hp] at h
      obtain rfl : x = a := by injection h
      exact ⟨[], t, rfl, by simp, hp⟩
    | false =>
      rw [List.find?_cons_of_neg _ (by simp [hp])] at h
      obtain ⟨pre, post, heq, hpre, hpa⟩ := ih a h
      exact ⟨x :: pre, post, by rw [heq, List.cons_append],
        by intro y hy; rcases List.mem_cons.1 hy with rfl | hy'; exact hp; exact hpre y hy', hpa⟩

theorem lookup_filter_const {c : String} {q : String × Val → Bool} (l : Row)
    (hq : ∀ v, q (c, v) = true) :
    List.lookup c (l.filter q) = List.lookup c l := by
  induction l with
  | nil => rfl
  | cons x t ih =>
    obtain ⟨a, b⟩ := x
    by_cases hac : a = c
    · have hkeep : q (a, b) = true := by rw [hac]; exact hq b
      rw [List.filter_cons, hkeep]
      simp only [if_true, ite_true]
      rw [List.lookup_cons, List.lookup_cons]
      cases hcb : (c == a : Bool) with
      | false => simpa only [hcb] using ih
      | true => simp only [hcb]
    · have hca : (c == a) = false := by
        simp [beq_iff_eq]; exact fun hh => hac hh.symm
      rw [List.filter_cons]
      cases hqa : q (a, b) with
      | true =>
        simp only [if_true, ite_true]
        rw [List.lookup_cons, hca, List.lookup_cons, hca]
        exact ih
      | false =>
        simp only [Bool.false_eq_true, if_false, ite_false]
        rw [List.lookup_cons, hca]
        exact ih

theorem sumCol_shift (c : String) (rows : List Row) :
    ∀ init : Int,
      rows.foldl (fun acc r => acc + cellNum (getVal r c)) init
        = init + sumCol c rows := by
  induction rows with
  | nil => intro init; simp [sumCol]
  | cons r t ih =>
    intro init
    have hrec : sumCol c (r :: t) = cellNum (getVal r c) + sumCol c t := by
      unfold sumCol
      simp only [List.foldl_cons]
      rw [ih (0 + cellNum (getVal r c)), ih 0]
      omega
    simp only [List.foldl_cons]
    rw [ih (init + cellNum (getVal r c)), hrec]
    omega

theorem sumCol_append (c : String) (r1 r2 : List Row) :
    sumCol c (r1 ++ r2) = sumCol c r1 + sumCol c r2 := by
  unfold sumCol
  rw [List.foldl_append]
  rw [show List.foldl (fun acc r => acc + cellNum (getVal r c)) 0 r1 = sumCol c r1 from rfl]
  exact sumCol_shift c r2 (sumCol c r1)

theorem listCharLE_total : ∀ l1 l2 : List Char,
    listCharLE l1 l2 = true ∨ listCharLE l2 l1 = true := by
  intro l1
  induction l1 with
  | nil => intro l2; left; rfl
  | cons a as ih =>
    intro l2
    cases l2 with
    | nil => right; rfl
    | cons b bs =>
      rcases Nat.lt_trichotomy a.toNat b.toNat with hlt | heq | hgt
      · left
        simp [listCharLE, hlt]
      · have hab : ¬ a.toNat < b.toNat := by omega
        have hba : ¬ b.toNat < a.toNat := by omega
        rcases ih bs with h | h
        · left; simp [listCharLE, hab, hba, h]
        · right; simp [listCharLE, hab, hba, h]
      · right
        simp [listCharLE, hgt]

theorem valLE_total (a b : Val) : valLE a b = true ∨ valLE b a = true := by
  cases a <;> cases b <;> simp [valLE, valKind, strLEb] <;> first
    | exact Int.le_total ..
    | exact listCharLE_total ..

theorem insertRow_perm (le : Row → Row → Bool) (x : Row) :
    ∀ l : List Row, (insertRow le x l).Perm (x :: l) := by
  intro l
  induction l with
  | nil => exact List.Perm.refl _
  | cons y ys ih =>
    unfold insertRow
    cases hxy : le x y with
    | true => simp
    | false =>
      simp only [Bool.false_eq_true, if_false]
      exact (List.Perm.cons y ih).trans (List.Perm.swap x y ys)

theorem insertRow_head? (le : Row → Row → Bool) (x : Row) (l : List Row) :
    (insertRow le x l).head? = some x ∨ (insertRow le x l).head? = l.head? := by
  cases l with
  | nil => left; rfl
  | cons y ys =>
    unfold insertRow
    cases hxy : le x y with
    | true => left; simp
    | false => right; simp

theorem insertRow_chain' {le : Row → Row → Bool}
    (htot : ∀ a b, le a b = true ∨ le b a = true) (x : Row) :
    ∀ l : List Row, List.Chain' (fun a b => le a b = true) l →
      List.Chain' (fun a b => le a b = true) (insertRow le x l) := by
  intro l
  induction l with
  | nil => intro _; exact List.chain'_singleton x
  | cons y ys ih =>
    intro h
    unfold insertRow
    cases hxy : le x y with
    | true =>
      simp only [if_true, ite_true]
      exact List.chain'_cons.2 ⟨hxy, h⟩
    | false =>
      simp only [Bool.false_eq_true, if_false, ite_false]
      have hyx : le y x = true := by
        rcases htot x y with h' | h'
        · rw [hxy] at h'; exact absurd h' (by simp)
        · exact h'
      have htail : List.Chain' (fun a b => le a b = true) (insertRow le x ys) :=
        ih (List.chain'_cons'.1 h).2
      refine List.chain'_cons'.2 ⟨?_, htail⟩
      intro z hz
      rcases insertRow_head? le x ys with hh | hh
      · rw [hh] at hz
        obtain rfl : x = z := by injection hz
        exact hyx
      · rw [hh] at hz
        exact (List.chain'_cons'.1 h).1 z hz

theorem sortRows_perm (c : String) (rows : List Row) :
    (sortRows c rows).Perm rows := by
  unfold sortRows
  induction rows with
  | nil => exact List.Perm.refl _
  | cons r t ih =>
    exact (insertRow_perm _ r _).trans (List.Perm.cons r ih)

theorem sortRows_chain' (c : String) (rows : List Row) :
    List.Chain' (fun a b => valLE (getVal a c) (getVal b c) = true) (sortRows c rows) := by
  unfold sortRows
  induction rows with
  | nil => exact List.chain'_nil
  | cons r t ih =>
    exact insertRow_chain'
      (fun a b => valLE_total (getVal a c) (getVal b c)) r _ ih

theorem load_save (s : Finset String) :
    load_selected_handles (some (save_selected_handles s)) = s := by
  unfold load_selected_handles save_selected_handles
  exact Finset.sort_toFinset _ s

theorem applyOp_sync (st : StoreState) (op : StoreOp) :
    load_selected_handles (applyOp st op).disk = (applyOp st op).mem := by
  cases op <;> simp [applyOp, load_save]

theorem contains_eq_false_of_not_mem {l : List String} {a : String}
    (h : a ∉ l) : l.contains a = false := by
  cases hc : l.contains a with
  | false => rfl
  | true => exact absurd (List.elem_iff.1 hc) h

theorem keyStr_mergeOne {pr : Row} (pcols icols : List String) (irows : List Row)
    (h : keyStr pr ≠ "") :
    keyStr (mergeOne pcols icols irows pr) = keyStr pr := by
  unfold mergeOne
  cases hf : irows.find? (fun ir => getVal ir "sku_num" == getVal pr "sku_num") with
  | none => rfl
  | some best =>
    simp only
    unfold keyStr getVal
    rw [lookup_append_some (keyStr_lookup h)]
    rfl

theorem fuzzy_ok_rows {pdf idf p i : Table}
    (hp : preprocess_sku pdf = some p) (hi : preprocess_sku idf = some i)
    (hne : p.rows ≠ []) :
    fuzzy_match_inventory pdf idf
      = Except.ok ⟨unionCols (p.rows.map (mergeOne p.cols i.cols i.rows)),
                   p.rows.map (mergeOne p.cols i.cols i.rows)⟩ := by
  cases hrows : p.rows with
  | nil => exact absurd hrows hne
  | cons a t => simp [fuzzy_match_inventory, hp, hrows, hi]

/-- The merge in `output_selected_files` (line 187) drops every column the
two frames share — including the join key `Handle` — from the right frame
and then merges `on='Handle'`; whenever both frames expose `Handle` (which
the preceding two filters already require), the merge raises a `KeyError`,
so the export never completes. -/
theorem export_always_raises (full merged : Table) (sel : List String)
    (origP origI : Option (List String))
    (hf : "Handle" ∈ full.cols) (hm : "Handle" ∈ merged.cols) :
    output_selected_files full merged sel origP origI
      = Except.error "KeyError: Handle" := by
  unfold output_selected_files
  rw [if_pos hf, if_pos hm]
  have hinter : "Handle" ∈ (select_by_handle full sel).cols.inter
      (select_by_handle merged sel).cols :=
    List.mem_inter_iff.2 ⟨hf, hm⟩
  have hdrop : "Handle" ∉ (dropCols (select_by_handle merged sel)
      ((select_by_handle full sel).cols.inter (select_by_handle merged sel).cols)).cols := by
    intro hmem
    have hneg := (List.mem_filter.1 hmem).2
    have hcontains : ((select_by_handle full sel).cols.inter
        (select_by_handle merged sel).cols).contains "Handle" = true :=
      List.elem_iff.2 hinter
    rw [hcontains] at hneg
    simp at hneg
  have hmerge : pdMerge (select_by_handle full sel)
      (dropCols (select_by_handle merged sel)
        ((select_by_handle full sel).cols.inter (select_by_handle merged sel).cols))
      "Handle" = Except.error "KeyError: Handle" := by
    unfold pdMerge
    rw [if_neg (fun hand => hdrop hand.2)]
    rfl
  simp only [hmerge]

/-! ### Claims -/

/-- C2 counterexample: a product table exposing neither `'Variant SKU'`
nor `'SKU'` does NOT make reconciliation fail with a `SchemaError` (or
any error): `fuzzy_match_inventory` warns inside `preprocess_sku` and
returns an empty result. -/
theorem C2_counterexample :
    sku_col noSkuProduct = none
    ∧ fuzzy_match_inventory noSkuProduct inventoryW = Except.ok emptyTable :=
  ⟨rfl, rfl⟩

/-- C2 (amended): if the product table exposes neither `'Variant SKU'`
nor `'SKU'`, reconciliation raises no error and returns an empty table
(no partial rows); if only the inventory table lacks both columns while
the product table contributes at least one keyed row, reconciliation
fails with a `KeyError` on the missing `sku_num` column — not with a
`SchemaError` naming the responsible table. -/
theorem C2_missing_sku_column :
    (∀ pdf idf : Table, sku_col pdf = none →
      fuzzy_match_inventory pdf idf = Except.ok emptyTable)
    ∧ (∀ (pdf idf p : Table), preprocess_sku pdf = some p → p.rows ≠ [] →
        sku_col idf = none →
        fuzzy_match_inventory pdf idf = Except.error "KeyError: sku_num") := by
  constructor
  · intro pdf idf h
    simp [fuzzy_match_inventory, preprocess_sku, h]
  · intro pdf idf p hp hne hsk
    have hnone : preprocess_sku idf = none := by simp [preprocess_sku, hsk]
    cases hrows : p.rows with
    | nil => exact absurd hrows hne
    | cons a t => simp [fuzzy_match_inventory, hp, hrows, hnone]

/-- C2 witness: both branches of the amended claim at concrete tables. -/
theorem C2_missing_sku_column_witness :
    fuzzy_match_inventory noSkuProduct inventoryW = Except.ok emptyTable
    ∧ fuzzy_match_inventory productW noSkuProduct
        = Except.error "KeyError: sku_num" :=
  ⟨C2_missing_sku_column.1 noSkuProduct inventoryW rfl,
   C2_missing_sku_column.2 productW noSkuProduct productWP rfl (by decide) rfl⟩

/-- C4 counterexample: a product row whose SKU contains no digit does not
pass through to the reconciled output — it is dropped, and the output of
`reconcile([P], inventory)` has no rows at all. -/
theorem C4_counterexample :
    extract_sku_number (Val.str "ABC") = ""
    ∧ fuzzy_match_inventory productNoDigit inventoryW = Except.ok emptyTable
    ∧ emptyTable.rows = ([] : List Row) :=
  ⟨rfl, rfl, rfl⟩

/-- C4 (amended): for every product row P whose MatchKey is empty,
`reconcile([P], inventory)` yields an EMPTY output for any inventory
table: P is dropped entirely (excluded from matching and absent from the
result), rather than passing through unchanged. -/
theorem C4_unkeyed_row_dropped
    (pcols : List String) (pr : Row) (idf : Table) (c : String)
    (hsk : sku_col ⟨pcols, [pr]⟩ = some c)
    (hkey : extract_sku_number (getVal pr c) = "") :
    fuzzy_match_inventory ⟨pcols, [pr]⟩ idf = Except.ok emptyTable := by
  have hk : keyStr (addKeyCol c pr) = "" := by rw [keyStr_addKeyCol, hkey]
  unfold fuzzy_match_inventory preprocess_sku
  rw [hsk]
  simp [hk]

/-- C4 witness: the digit-free product row "ABC" is dropped. -/
theorem C4_unkeyed_row_dropped_witness :
    fuzzy_match_inventory productNoDigit inventoryW = Except.ok emptyTable :=
  C4_unkeyed_row_dropped ["Handle", "Variant SKU"]
    [("Handle", Val.str "h1"), ("Variant SKU", Val.str "ABC")]
    inventoryW "Variant SKU" rfl rfl

/-- C5: the aggregator picks the column named exactly `'Available
Quantity'` when present; otherwise the first column whose name contains
the case-sensitive substring `'Available'`; and when no such column
exists it reports the distinct no-inventory-data outcome (`none`), under
which the group is unconditionally dropped by the inventory filter —
observably different from a zero sum, which keeps the group whenever the
filter range contains 0. -/
theorem C5_quantity_column_policy :
    (∀ g : Table, "Available Quantity" ∈ g.cols →
      pick_qty_col g.cols = some "Available Quantity")
    ∧ (∀ (g : Table) (c : String), "Available Quantity" ∉ g.cols →
        pick_qty_col g.cols = some c →
        ∃ pre post, g.cols = pre ++ c :: post
          ∧ (∀ x ∈ pre, strHas x "Available" = false)
          ∧ strHas c "Available" = true)
    ∧ (∀ g : Table, (∀ c ∈ g.cols, strHas c "Available" = false) →
        aggregate g = none ∧ ∀ lo hi : Int, keepGroup lo hi g = false)
    ∧ (∀ (g : Table) (lo hi q : Int), aggregate g = some q →
        lo ≤ q → q ≤ hi → keepGroup lo hi g = true) := by
  refine ⟨?_, ?_, ?_, ?_⟩
  · intro g h
    simp [pick_qty_col, h]
  · intro g c hnot hpick
    rw [pick_qty_col, if_neg hnot] at hpick
    exact find?_first _ g.cols c hpick
  · intro g hall
    have hnotAQ : "Available Quantity" ∉ g.cols := by
      intro hmem
      have := hall _ hmem
      exact absurd this (by decide)
    have hfind : g.cols.find? (fun c => strHas c "Available") = none :=
      List.find?_eq_none.2 (fun x hx => by rw [hall x hx]; simp)
    have hagg : aggregate g = none := by
      unfold aggregate pick_qty_col
      rw [if_neg hnotAQ, hfind]
    refine ⟨hagg, fun lo hi => ?_⟩
    unfold keepGroup
    rw [hagg]
  · intro g lo hi q hagg hlo hhi
    unfold keepGroup
    rw [hagg]
    simp [hlo, hhi]

/-- C5 witness: the three branches of the policy at concrete groups. -/
theorem C5_quantity_column_policy_witness :
    pick_qty_col ["SKU", "Available Quantity"] = some "Available Quantity"
    ∧ (aggregate ⟨["SKU", "On hand"], []⟩ = none
        ∧ ∀ lo hi : Int, keepGroup lo hi ⟨["SKU", "On hand"], []⟩ = false)
    ∧ keepGroup 0 10 ⟨["Available Quantity"], []⟩ = true :=
  ⟨C5_quantity_column_policy.1 ⟨["SKU", "Available Quantity"], []⟩ (by decide),
   C5_quantity_column_policy.2.2.1 ⟨["SKU", "On hand"], []⟩ (by decide),
   C5_quantity_column_policy.2.2.2 ⟨["Available Quantity"], []⟩ 0 10 0 rfl
     (by decide) (by decide)⟩

/-- C6: aggregation is additive over concatenation of row lists of one
group (same columns, hence the same resolved quantity column); missing
and NaN cells count as zero via `cellNum`. -/
theorem C6_aggregate_additive
    (cols : List String) (r1 r2 : List Row) (c : String) (a b : Int)
    (hpick : pick_qty_col cols = some c)
    (h1 : aggregate ⟨cols, r1⟩ = some a)
    (h2 : aggregate ⟨cols, r2⟩ = some b) :
    aggregate ⟨cols, r1 ++ r2⟩ = some (a + b) := by
  unfold aggregate at h1 h2 ⊢
  simp only [hpick] at h1 h2 ⊢
  obtain rfl : sumCol c r1 = a := by injection h1
  obtain rfl : sumCol c r2 = b := by injection h2
  rw [sumCol_append]

/-- C6 witness: a null cell counts as zero and the sums add. -/
theorem C6_aggregate_additive_witness :
    aggregate ⟨["Available Quantity"],
      [[("Available Quantity", Val.num 2)],
       [("Available Quantity", Val.null)],
       [("Available Quantity", Val.num 3)]]⟩ = some 5 :=
  C6_aggregate_additive ["Available Quantity"]
    [[("Available Quantity", Val.num 2)]]
    [[("Available Quantity", Val.null)], [("Available Quantity", Val.num 3)]]
    "Available Quantity" 2 3 rfl rfl rfl

/-- C7 counterexample: on a table whose `Handle` column is present but
not first, the export's sort step (line 190) orders by the first column
`A`, not by `Handle` as the claim states: the code's result and the
spec-described result differ. -/
theorem C7_counterexample :
    "Handle" ∈ sortT.cols
    ∧ sort_values_first sortT = Except.ok
        ⟨["A", "Handle"],
         [[("A", Val.num 1), ("Handle", Val.str "b")],
          [("A", Val.num 2), ("Handle", Val.str "a")]]⟩
    ∧ spec_sort_for_export sortT = Except.ok
        ⟨["A", "Handle"],
         [[("A", Val.num 2), ("Handle", Val.str "a")],
          [("A", Val.num 1), ("Handle", Val.str "b")]]⟩
    ∧ (⟨["A", "Handle"],
         [[("A", Val.num 1), ("Handle", Val.str "b")],
          [("A", Val.num 2), ("Handle", Val.str "a")]]⟩ : Table)
        ≠ ⟨["A", "Handle"],
           [[("A", Val.num 2), ("Handle", Val.str "a")],
            [("A", Val.num 1), ("Handle", Val.str "b")]]⟩ := by
  refine ⟨by decide, rfl, ?_, by decide⟩
  unfold spec_sort_for_export
  rw [if_pos (show "Handle" ∈ sortT.cols by decide)]
  rfl

/-- C7 (amended): before serialization the export sorts the selected
rows by the FIRST column of the assembled table, regardless of whether a
`Handle` column is present: the result keeps the columns, is a
permutation of the rows, and is ordered ascending by the first column's
value; being a pure function of the selection, repeated exports produce
identical row order. -/
theorem C7_sort_by_first_column
    (t : Table) (c0 : String) (rest : List String) (ht : t.cols = c0 :: rest) :
    sort_values_first t = Except.ok ⟨t.cols, sortRows c0 t.rows⟩
    ∧ (sortRows c0 t.rows).Perm t.rows
    ∧ List.Chain' (fun a b => valLE (getVal a c0) (getVal b c0) = true)
        (sortRows c0 t.rows) := by
  obtain ⟨cols, rows⟩ := t
  simp only at ht
  subst ht
  exact ⟨rfl, sortRows_perm c0 rows, sortRows_chain' c0 rows⟩

/-- C7 witness: the amended sort property at the concrete table. -/
theorem C7_sort_by_first_column_witness :
    sort_values_first sortT = Except.ok ⟨sortT.cols, sortRows "A" sortT.rows⟩
    ∧ (sortRows "A" sortT.rows).Perm sortT.rows
    ∧ List.Chain' (fun a b => valLE (getVal a "A") (getVal b "A") = true)
        (sortRows "A" sortT.rows) :=
  C7_sort_by_first_column sortT "A" ["Handle"] rfl

/-- C8: exporting with an EMPTY selection does not succeed with
header-only outputs; `output_selected_files` raises a `KeyError` at the
merge of line 187 (which drops the join key `Handle` from its right
frame), so no output tables are produced at all. -/
theorem C8_export_empty_selection_raises :
    output_selected_files productW mergedW []
      (some ["Handle", "Title", "Variant SKU"])
      (some ["SKU", "Available Quantity"])
      = Except.error "KeyError: Handle" := rfl

/-- C9: the selection store round-trips through durable storage: loading
with no prior storage file yields the empty set, and after any non-empty
sequence of add/remove/clear mutations (each followed by its synchronous
full-overwrite persist) a fresh load returns exactly the in-memory set at
the last persist. -/
theorem C9_store_roundtrip :
    load_selected_handles none = (∅ : Finset String)
    ∧ ∀ (ops : List StoreOp) (st : StoreState), ops ≠ [] →
        load_selected_handles (applyOps st ops).disk = (applyOps st ops).mem := by
  refine ⟨rfl, ?_⟩
  intro ops
  induction ops with
  | nil => intro st h; exact absurd rfl h
  | cons op rest ih =>
    intro st _
    cases hrest : rest with
    | nil =>
      subst hrest
      exact applyOp_sync st op
    | cons op2 rest2 =>
      subst hrest
      exact ih (applyOp st op) (by simp)

/-- C9 witness: a simulated restart after adding "h1" from a fresh
session recovers exactly the persisted set {"h1"}. -/
theorem C9_store_roundtrip_witness :
    load_selected_handles (applyOps ⟨∅, none⟩ [StoreOp.add "h1"]).disk
      = (applyOps ⟨∅, none⟩ [StoreOp.add "h1"]).mem
    ∧ (applyOps ⟨∅, none⟩ [StoreOp.add "h1"]).mem = {"h1"} :=
  ⟨C9_store_roundtrip.2 [StoreOp.add "h1"] ⟨∅, none⟩ (by simp), rfl⟩

/-- C10: the export's selected frame IS assembled from the original
pre-reconciliation product table filtered by selected Handle — the
unkeyable row `rowE` (whose MatchKey is empty, hence absent from the
reconciled output) is present in it — but the export then raises a
`KeyError` at the merge step before any product file is produced, so the
row appears in no exported file. -/
theorem C10_export_source_is_original_table :
    extract_sku_number (getVal rowE "Variant SKU") = ""
    ∧ fuzzy_match_inventory productE inventoryW = Except.ok emptyTable
    ∧ (select_by_handle productE ["h1"]).rows = [rowE]
    ∧ output_selected_files productE emptyTable ["h1"]
        (some ["Handle", "Title", "Variant SKU"])
        (some ["SKU", "Available Quantity"])
        = Except.error "KeyError: Handle" :=
  ⟨rfl, rfl, rfl, rfl⟩

/-- C1: for every preprocessed product row `pr` (non-empty MatchKey by
construction) with at least one equal-key inventory row, reconciliation
succeeds and outputs exactly one merged row per product row; the chosen
inventory row `best` is the first equal-key row in the inventory table's
order (every earlier row has a different key); the merged row is the
product row followed by the chosen row minus the shared columns, so it
retains every product cell unchanged (product wins each name collision)
and carries every cell of the chosen inventory row whose column is not a
product column. -/
theorem C1_first_match_merge
    (pdf idf p i : Table) (pr : Row)
    (hp : preprocess_sku pdf = some p)
    (hi : preprocess_sku idf = some i)
    (hpr : pr ∈ p.rows)
    (hex : ∃ ir ∈ i.rows, getVal ir "sku_num" = getVal pr "sku_num") :
    ∃ (res : Table) (best : Row) (pre post : List Row),
      fuzzy_match_inventory pdf idf = Except.ok res
      ∧ res.rows = p.rows.map (mergeOne p.cols i.cols i.rows)
      ∧ i.rows = pre ++ best :: post
      ∧ (∀ x ∈ pre, getVal x "sku_num" ≠ getVal pr "sku_num")
      ∧ getVal best "sku_num" = getVal pr "sku_num"
      ∧ mergeOne p.cols i.cols i.rows pr
          = pr ++ best.filter (fun cv => !((p.cols.inter i.cols).contains cv.1))
      ∧ (∀ (c : String) (v : Val), List.lookup c pr = some v →
          List.lookup c (mergeOne p.cols i.cols i.rows pr) = some v)
      ∧ (∀ (c : String) (v : Val), c ∉ p.cols → List.lookup c pr = none →
          List.lookup c best = some v →
          List.lookup c (mergeOne p.cols i.cols i.rows pr) = some v) := by
  have hsome : (i.rows.find?
      (fun ir => getVal ir "sku_num" == getVal pr "sku_num")).isSome = true := by
    apply List.find?_isSome.2
    obtain ⟨ir, hmem, heq⟩ := hex
    exact ⟨ir, hmem, beq_iff_eq.2 heq⟩
  obtain ⟨best, hfind⟩ := Option.isSome_iff_exists.1 hsome
  obtain ⟨pre, post, hsplit, hpre, hbest⟩ := find?_first _ i.rows best hfind
  have hne : p.rows ≠ [] := fun hnil => by rw [hnil] at hpr; simp at hpr
  have hfz := fuzzy_ok_rows hp hi hne
  have hmerge : mergeOne p.cols i.cols i.rows pr
      = pr ++ best.filter (fun cv => !((p.cols.inter i.cols).contains cv.1)) := by
    unfold mergeOne
    rw [hfind]
  refine ⟨_, best, pre, post, hfz, rfl, hsplit, ?_, beq_iff_eq.1 hbest, hmerge, ?_, ?_⟩
  · intro x hx heq
    have hfalse := hpre x hx
    rw [beq_iff_eq.2 heq] at hfalse
    exact absurd hfalse (by simp)
  · intro c v hcv
    rw [hmerge]
    exact lookup_append_some hcv
  · intro c v hcnot hnone hbv
    rw [hmerge, lookup_append_none hnone,
      lookup_filter_const best (fun w => ?_)]
    · exact hbv
    · have hcf : (p.cols.inter i.cols).contains c = false :=
        contains_eq_false_of_not_mem
          (fun hmem => hcnot (List.mem_inter_iff.1 hmem).1)
      rw [hcf]
      rfl

/-- C1 witness: the concrete scenario with two equal-key inventory rows,
where the first one (quantity 5) wins. -/
theorem C1_first_match_merge_witness :
    ∃ (res : Table) (best : Row) (pre post : List Row),
      fuzzy_match_inventory productW inventoryW = Except.ok res
      ∧ res.rows = productWP.rows.map
          (mergeOne productWP.cols inventoryWP.cols inventoryWP.rows)
      ∧ inventoryWP.rows = pre ++ best :: post
      ∧ (∀ x ∈ pre, getVal x "sku_num" ≠ getVal prW "sku_num")
      ∧ getVal best "sku_num" = getVal prW "sku_num"
      ∧ mergeOne productWP.cols inventoryWP.cols inventoryWP.rows prW
          = prW ++ best.filter
              (fun cv => !((productWP.cols.inter inventoryWP.cols).contains cv.1))
      ∧ (∀ (c : String) (v : Val), List.lookup c prW = some v →
          List.lookup c (mergeOne productWP.cols inventoryWP.cols
            inventoryWP.rows prW) = some v)
      ∧ (∀ (c : String) (v : Val), c ∉ productWP.cols → List.lookup c prW = none →
          List.lookup c best = some v →
          List.lookup c (mergeOne productWP.cols inventoryWP.cols
            inventoryWP.rows prW) = some v) :=
  C1_first_match_merge productW inventoryW productWP inventoryWP prW
    rfl rfl (by decide) ⟨irW, by decide, rfl⟩

/-- C3: rows with an empty MatchKey are excluded throughout: every row
surviving preprocessing — the matching universe on both the product and
the inventory side — has a non-empty key, and every row of a successful
reconciled output has a non-empty key, so an unkeyable row from either
input is absent from the output and never matched against. -/
theorem C3_empty_key_rows_excluded :
    (∀ (t t' : Table) (r : Row), preprocess_sku t = some t' → r ∈ t'.rows →
      keyStr r ≠ "")
    ∧ (∀ (pdf idf res : Table), fuzzy_match_inventory pdf idf = Except.ok res →
        ∀ r ∈ res.rows, keyStr r ≠ "") := by
  constructor
  · intro t t' r hp hr
    exact mem_preprocess_key hp hr
  · intro pdf idf res h r hr
    cases hp : preprocess_sku pdf with
    | none =>
      have hfz : fuzzy_match_inventory pdf idf = Except.ok emptyTable := by
        simp [fuzzy_match_inventory, hp]
      rw [hfz] at h
      obtain rfl : emptyTable = res := by injection h
      simp [emptyTable] at hr
    | some p =>
      cases hrows : p.rows with
      | nil =>
        have hfz : fuzzy_match_inventory pdf idf = Except.ok emptyTable := by
          simp [fuzzy_match_inventory, hp, hrows]
        rw [hfz] at h
        obtain rfl : emptyTable = res := by injection h
        simp [emptyTable] at hr
      | cons a t =>
        cases hi : preprocess_sku idf with
        | none =>
          have hfz : fuzzy_match_inventory pdf idf
              = Except.error "KeyError: sku_num" := by
            simp [fuzzy_match_inventory, hp, hrows, hi]
          rw [hfz] at h
          exact absurd h (by simp)
        | some i =>
          have hfz := fuzzy_ok_rows hp hi (by rw [hrows]; simp)
          rw [hfz] at h
          obtain rfl : (⟨unionCols (p.rows.map (mergeOne p.cols i.cols i.rows)),
              p.rows.map (mergeOne p.cols i.cols i.rows)⟩ : Table) = res := by
            injection h
          obtain ⟨pr, hpr, rfl⟩ := List.mem_map.1 hr
          have hkey := mem_preprocess_key hp hpr
          rw [keyStr_mergeOne p.cols i.cols i.rows hkey]
          exact hkey

/-- C3 witness: a preprocessed inventory row and a reconciled output row
both carry the non-empty key "100". -/
theorem C3_empty_key_rows_excluded_witness :
    keyStr irW ≠ ""
    ∧ keyStr (prW ++ [("SKU", Val.str "XYZ-100"),
        ("Available Quantity", Val.num 5)]) ≠ "" :=
  ⟨C3_empty_key_rows_excluded.1 inventoryW inventoryWP irW rfl (by decide),
   C3_empty_key_rows_excluded.2 productW inventoryW mergedW rfl
     (prW ++ [("SKU", Val.str "XYZ-100"), ("Available Quantity", Val.num 5)])
     (by decide)⟩

end Dropship
